import Mathlib

/-!
Shallow embedding of the interrupt-driven AVR UART driver
(`uart.c` / `uart.h`): two circular buffers (receive and transmit) with
head/tail indices, a receive-interrupt producer, a transmit-interrupt
consumer, non-blocking get, busy-waiting put, a string helper, and the
introspection functions `UART_CharsAvail` / `UART_FlushBuffer`.

Machine integers are modelled as `Nat`; the only place C arithmetic can
go negative is `UART_CharsAvail`, which computes in `int` and is
therefore modelled over `Int` with C's truncating `%` (`Int.tmod`).
The peripheral registers are modelled at their interface: the status
register value `usr` and the data register value `data` are inputs of
the receive interrupt, bytes written to the transmit data register are
collected in the output trace `txOut`, and of the control register only
the one bit the buffered driver toggles (UDRIE, the transmit-ready
interrupt enable) is kept, as the Boolean `udrie`.
-/

/-- Size of the circular receive buffer (`UART_RX_BUFFER_SIZE`, default 32). -/
def UART_RX_BUFFER_SIZE : Nat := 32

/-- Size of the circular transmit buffer (`UART_TX_BUFFER_SIZE`, default 32). -/
def UART_TX_BUFFER_SIZE : Nat := 32

/-- Index mask of the receive buffer (`UART_RX_BUFFER_SIZE - 1`). -/
def UART_RX_BUFFER_MASK : Nat := UART_RX_BUFFER_SIZE - 1

/-- Index mask of the transmit buffer (`UART_TX_BUFFER_SIZE - 1`). -/
def UART_TX_BUFFER_MASK : Nat := UART_TX_BUFFER_SIZE - 1

/-- High-byte error return code: framing error (`UART_FRAME_ERROR`). -/
def UART_FRAME_ERROR : Nat := 0x0800

/-- High-byte error return code: hardware overrun (`UART_OVERRUN_ERROR`). -/
def UART_OVERRUN_ERROR : Nat := 0x0400

/-- High-byte error return code: receive ring overflow (`UART_BUFFER_OVERFLOW`). -/
def UART_BUFFER_OVERFLOW : Nat := 0x0200

/-- Sentinel returned when no receive data is available (`UART_NO_DATA`). -/
def UART_NO_DATA : Nat := 0x0100

/-- Bit number of the framing-error flag in the UART status register
(`FE`; device-header value for the ATmega16 target named in `uart.h`). -/
def FE : Nat := 4

/-- Bit number of the data-overrun flag in the UART status register
(`DOR`; device-header value for the ATmega16 target named in `uart.h`). -/
def DOR : Nat := 3

/-- The module-global state of the driver: the two ring buffers with their
head/tail indices, the sticky receive-error byte, the modelled UDRIE bit of
the control register, and the trace of bytes handed to the transmit data
register. -/
structure UARTState where
  UART_TxBuf : Nat → Nat
  UART_RxBuf : Nat → Nat
  UART_TxHead : Nat
  UART_TxTail : Nat
  UART_RxHead : Nat
  UART_RxTail : Nat
  UART_LastRxError : Nat
  udrie : Bool
  txOut : List Nat

/-- Point update of a buffer modelled as a function. -/
def writeBuf (buf : Nat → Nat) (i v : Nat) : Nat → Nat :=
  fun j => if j = i then v else buf j

/-- Receive-complete interrupt handler `ISR(UART_RECEIVE_INTERRUPT)`:
`usr` is the value read from the status register, `data` the value read
from the data register. -/
def ISR_UART_RECEIVE_INTERRUPT (usr data : Nat) (s : UARTState) : UARTState :=
  let lastRxError := usr &&& ((1 <<< FE) ||| (1 <<< DOR))
  let tmphead := (s.UART_RxHead + 1) &&& UART_RX_BUFFER_MASK
  if tmphead = s.UART_RxTail then
    { s with UART_LastRxError := UART_BUFFER_OVERFLOW >>> 8 }
  else
    { s with UART_RxHead := tmphead,
             UART_RxBuf := writeBuf s.UART_RxBuf tmphead data,
             UART_LastRxError := lastRxError }

/-- Data-register-empty interrupt handler `ISR(UART_TRANSMIT_INTERRUPT)`:
the write to `UART_DATA` is recorded on the `txOut` trace; the empty
branch clears the UDRIE bit of the control register. -/
def ISR_UART_TRANSMIT_INTERRUPT (s : UARTState) : UARTState :=
  if s.UART_TxHead ≠ s.UART_TxTail then
    let tmptail := (s.UART_TxTail + 1) &&& UART_TX_BUFFER_MASK
    { s with UART_TxTail := tmptail,
             txOut := s.txOut ++ [s.UART_TxBuf tmptail] }
  else
    { s with udrie := false }

/-- `UART_Init`: zeroes the four indices. The baud-rate, frame-format and
receiver/transmitter-enable register writes touch only peripheral
configuration outside the model; the write
`UART_CONTROL = (1<<RXCIE)|(1<<RXEN)|(1<<TXEN)` leaves the UDRIE bit
clear, so the modelled bit becomes `false`. -/
def UART_Init (s : UARTState) : UARTState :=
  { s with UART_TxHead := 0, UART_TxTail := 0,
           UART_RxHead := 0, UART_RxTail := 0,
           udrie := false }

/-- `UART_CharGetNonBlocking`: returns the composite result together with
the post-state. -/
def UART_CharGetNonBlocking (s : UARTState) : Nat × UARTState :=
  if s.UART_RxHead = s.UART_RxTail then
    (UART_NO_DATA, s)
  else
    let tmptail := (s.UART_RxTail + 1) &&& UART_RX_BUFFER_MASK
    let data := s.UART_RxBuf tmptail
    ((s.UART_LastRxError <<< 8) + data, { s with UART_RxTail := tmptail })

/-- `UART_CharPutNonBlocking`: the busy-wait loop
`while (tmphead == UART_TxTail) ;` can only exit when a transmit
interrupt (running in another context) has moved `UART_TxTail`; in this
sequential model a full buffer therefore yields `none` (the call does
not complete without an interleaved consumer step), and otherwise the
byte is stored, the head advanced and the UDRIE bit set. -/
def UART_CharPutNonBlocking (data : Nat) (s : UARTState) : Option UARTState :=
  let tmphead := (s.UART_TxHead + 1) &&& UART_TX_BUFFER_MASK
  if tmphead = s.UART_TxTail then
    none
  else
    some { s with UART_TxBuf := writeBuf s.UART_TxBuf tmphead data,
                  UART_TxHead := tmphead,
                  udrie := true }

/-- `UART_StringPutNonBlocking`: the C string is the list of character
codes; iteration stops at the first null character, exactly as
`while (*s) UART_CharPutNonBlocking(*s++);` does. -/
def UART_StringPutNonBlocking : List Nat → UARTState → Option UARTState
  | [], s => some s
  | c :: cs, s =>
    if c = 0 then some s
    else (UART_CharPutNonBlocking c s).bind (UART_StringPutNonBlocking cs)

/-- `UART_CharsAvail`: the C expression
`(UART_RX_BUFFER_MASK + UART_RxHead - UART_RxTail) % UART_RX_BUFFER_MASK`
is `int` arithmetic, so it is modelled over `Int` with C's truncating
remainder. -/
def UART_CharsAvail (s : UARTState) : Int :=
  ((UART_RX_BUFFER_MASK : Int) + (s.UART_RxHead : Int) - (s.UART_RxTail : Int)).tmod
    (UART_RX_BUFFER_MASK : Int)

/-- `UART_FlushBuffer`: the source assigns `UART_RxHead = UART_RxTail;`. -/
def UART_FlushBuffer (s : UARTState) : UARTState :=
  { s with UART_RxHead := s.UART_RxTail }

/-- Sequential application of `UART_CharPutNonBlocking` to a list of
bytes, in order (the reference behaviour of the string helper on the
characters before the terminator). -/
def charPutAll : List Nat → UARTState → Option UARTState
  | [], s => some s
  | c :: cs, s => (UART_CharPutNonBlocking c s).bind (charPutAll cs)

/-- A concrete state with zeroed buffers and indices, used to instantiate
universally quantified theorems. -/
def emptyState : UARTState :=
  { UART_TxBuf := fun _ => 0, UART_RxBuf := fun _ => 0,
    UART_TxHead := 0, UART_TxTail := 0,
    UART_RxHead := 0, UART_RxTail := 0,
    UART_LastRxError := 0, udrie := false, txOut := [] }

/-- Number of live elements of the receive ring (integer
`(head - tail) mod capacity`, written without truncated subtraction). -/
def rxLive (s : UARTState) : Nat :=
  (s.UART_RxHead + UART_RX_BUFFER_SIZE - s.UART_RxTail) % UART_RX_BUFFER_SIZE

/-- Number of live elements of the transmit ring. -/
def txLive (s : UARTState) : Nat :=
  (s.UART_TxHead + UART_TX_BUFFER_SIZE - s.UART_TxTail) % UART_TX_BUFFER_SIZE

/-- Abstraction of the receive ring as the list of buffered, unread
bytes, oldest first: element `i` sits at index `(tail + 1 + i) mod 32`. -/
def rxQueue (s : UARTState) : List Nat :=
  (List.range (rxLive s)).map
    (fun i => s.UART_RxBuf ((s.UART_RxTail + 1 + i) % UART_RX_BUFFER_SIZE))

/-- Folding the receive interrupt over a list of `(status, data)` pairs:
the model of a burst of receive events. -/
def rxFill (xs : List (Nat × Nat)) (s : UARTState) : UARTState :=
  xs.foldl (fun st p => ISR_UART_RECEIVE_INTERRUPT p.1 p.2 st) s

/-- Performing `n` consecutive `UART_CharGetNonBlocking` calls, collecting
the returned composites. -/
def rxDrain : Nat → UARTState → List Nat × UARTState
  | 0, s => ([], s)
  | n + 1, s =>
    let p := UART_CharGetNonBlocking s
    let q := rxDrain n p.2
    (p.1 :: q.1, q.2)

/-- All four ring indices are inside `[0, bufferSize - 1]`. -/
def InvIdx (s : UARTState) : Prop :=
  s.UART_RxHead < UART_RX_BUFFER_SIZE ∧ s.UART_RxTail < UART_RX_BUFFER_SIZE ∧
  s.UART_TxHead < UART_TX_BUFFER_SIZE ∧ s.UART_TxTail < UART_TX_BUFFER_SIZE

instance (s : UARTState) : Decidable (InvIdx s) := by
  unfold InvIdx; infer_instance

/-- One step of the driver: an interrupt fires, or the application calls
one of the exported operations. The transmit-producer step is guarded by
the exit condition of its busy-wait loop, so it only fires once the
buffer is not full. -/
inductive UartStep : UARTState → UARTState → Prop
  | rx (usr data : Nat) (s : UARTState) :
      UartStep s (ISR_UART_RECEIVE_INTERRUPT usr data s)
  | tx (s : UARTState) : UartStep s (ISR_UART_TRANSMIT_INTERRUPT s)
  | get (s : UARTState) : UartStep s (UART_CharGetNonBlocking s).2
  | put (b : Nat) (s s' : UARTState) (h : UART_CharPutNonBlocking b s = some s') :
      UartStep s s'
  | puts (cs : List Nat) (s s' : UARTState)
      (h : UART_StringPutNonBlocking cs s = some s') : UartStep s s'
  | flush (s : UARTState) : UartStep s (UART_FlushBuffer s)

/-- A state is reachable when some finite run of steps leads to it from
an initialised state. -/
def Reachable (s : UARTState) : Prop :=
  ∃ s0, Relation.ReflTransGen UartStep (UART_Init s0) s

/-- Bridge between the source's bit mask and the modular arithmetic of
the specification: masking with `31` is reduction mod `32`. -/
theorem land_mask_eq_mod (n : Nat) : n &&& UART_RX_BUFFER_MASK = n % 32 :=
  Nat.and_pow_two_sub_one_eq_mod n 5

/-- Both index masks are `31`, the capacity `32`. -/
theorem rx_mask_eq : UART_RX_BUFFER_MASK = 31 := rfl

theorem tx_mask_eq : UART_TX_BUFFER_MASK = 31 := rfl

theorem land_tx_mask_eq_mod (n : Nat) : n &&& UART_TX_BUFFER_MASK = n % 32 :=
  Nat.and_pow_two_sub_one_eq_mod n 5

/-- Claim C2 (counterexample): on the state with `RxHead = 0`, `RxTail = 1`,
`UART_FlushBuffer` does not behave as claimed: it does not leave the head
index unchanged, and it does not set the tail to the head. -/
theorem flushBuffer_claim_false :
    ¬ ((UART_FlushBuffer { emptyState with UART_RxTail := 1 }).UART_RxHead =
         ({ emptyState with UART_RxTail := 1 } : UARTState).UART_RxHead ∧
       (UART_FlushBuffer { emptyState with UART_RxTail := 1 }).UART_RxTail =
         ({ emptyState with UART_RxTail := 1 } : UARTState).UART_RxHead) := by
  decide

/-- Claim C2 (amended): `UART_FlushBuffer` discards the buffered receive
bytes by setting the receive head equal to the receive tail, modifying
the head index and leaving the tail index (and all other state)
unchanged. -/
theorem flushBuffer_spec (s : UARTState) :
    (UART_FlushBuffer s).UART_RxHead = s.UART_RxTail ∧
    (UART_FlushBuffer s).UART_RxTail = s.UART_RxTail ∧
    (UART_FlushBuffer s).UART_RxBuf = s.UART_RxBuf ∧
    (UART_FlushBuffer s).UART_TxBuf = s.UART_TxBuf ∧
    (UART_FlushBuffer s).UART_TxHead = s.UART_TxHead ∧
    (UART_FlushBuffer s).UART_TxTail = s.UART_TxTail ∧
    (UART_FlushBuffer s).UART_LastRxError = s.UART_LastRxError ∧
    (UART_FlushBuffer s).udrie = s.udrie ∧
    (UART_FlushBuffer s).txOut = s.txOut :=
  ⟨rfl, rfl, rfl, rfl, rfl, rfl, rfl, rfl, rfl⟩

/-- Claim C3: in every receive-interrupt invocation, if
`(RxHead + 1) mod 32 = RxTail` the byte is dropped (head and buffer
unchanged) and `UART_LastRxError` is overwritten with the
`BufferOverflow` code `UART_BUFFER_OVERFLOW >>> 8`, masking the hardware
flags; otherwise the byte is stored at the advanced head,
`RxHead` becomes `(RxHead + 1) mod 32`, and `UART_LastRxError` is
overwritten with the hardware framing/overrun flags. -/
theorem rxIsr_spec (usr data : Nat) (s : UARTState) :
    if (s.UART_RxHead + 1) % 32 = s.UART_RxTail then
      (ISR_UART_RECEIVE_INTERRUPT usr data s).UART_RxHead = s.UART_RxHead ∧
      (ISR_UART_RECEIVE_INTERRUPT usr data s).UART_RxBuf = s.UART_RxBuf ∧
      (ISR_UART_RECEIVE_INTERRUPT usr data s).UART_RxTail = s.UART_RxTail ∧
      (ISR_UART_RECEIVE_INTERRUPT usr data s).UART_LastRxError =
        UART_BUFFER_OVERFLOW >>> 8
    else
      (ISR_UART_RECEIVE_INTERRUPT usr data s).UART_RxHead =
        (s.UART_RxHead + 1) % 32 ∧
      (ISR_UART_RECEIVE_INTERRUPT usr data s).UART_RxBuf
        ((s.UART_RxHead + 1) % 32) = data ∧
      (∀ j, j ≠ (s.UART_RxHead + 1) % 32 →
        (ISR_UART_RECEIVE_INTERRUPT usr data s).UART_RxBuf j = s.UART_RxBuf j) ∧
      (ISR_UART_RECEIVE_INTERRUPT usr data s).UART_RxTail = s.UART_RxTail ∧
      (ISR_UART_RECEIVE_INTERRUPT usr data s).UART_LastRxError =
        usr &&& ((1 <<< FE) ||| (1 <<< DOR)) := by
  unfold ISR_UART_RECEIVE_INTERRUPT
  rw [land_mask_eq_mod]
  by_cases h : (s.UART_RxHead + 1) % 32 = s.UART_RxTail
  · rw [if_pos h, if_pos h]
    exact ⟨rfl, rfl, rfl, rfl⟩
  · rw [if_neg h, if_neg h]
    refine ⟨rfl, ?_, ?_, rfl, rfl⟩
    · simp [writeBuf]
    · intro j hj
      simp [writeBuf, hj]

/-- Claim C3 (witness): the specification of the receive interrupt,
instantiated at a concrete status, byte and state. -/
theorem rxIsr_spec_at_empty :
    if (emptyState.UART_RxHead + 1) % 32 = emptyState.UART_RxTail then
      (ISR_UART_RECEIVE_INTERRUPT 0 65 emptyState).UART_RxHead =
        emptyState.UART_RxHead ∧
      (ISR_UART_RECEIVE_INTERRUPT 0 65 emptyState).UART_RxBuf =
        emptyState.UART_RxBuf ∧
      (ISR_UART_RECEIVE_INTERRUPT 0 65 emptyState).UART_RxTail =
        emptyState.UART_RxTail ∧
      (ISR_UART_RECEIVE_INTERRUPT 0 65 emptyState).UART_LastRxError =
        UART_BUFFER_OVERFLOW >>> 8
    else
      (ISR_UART_RECEIVE_INTERRUPT 0 65 emptyState).UART_RxHead =
        (emptyState.UART_RxHead + 1) % 32 ∧
      (ISR_UART_RECEIVE_INTERRUPT 0 65 emptyState).UART_RxBuf
        ((emptyState.UART_RxHead + 1) % 32) = 65 ∧
      (∀ j, j ≠ (emptyState.UART_RxHead + 1) % 32 →
        (ISR_UART_RECEIVE_INTERRUPT 0 65 emptyState).UART_RxBuf j =
          emptyState.UART_RxBuf j) ∧
      (ISR_UART_RECEIVE_INTERRUPT 0 65 emptyState).UART_RxTail =
        emptyState.UART_RxTail ∧
      (ISR_UART_RECEIVE_INTERRUPT 0 65 emptyState).UART_LastRxError =
        0 &&& ((1 <<< FE) ||| (1 <<< DOR)) :=
  rxIsr_spec 0 65 emptyState

/-- Branch equation of the consumer: with an empty receive ring it
returns the sentinel and the unchanged state. -/
theorem charGet_eq_of_eq (s : UARTState) (h : s.UART_RxHead = s.UART_RxTail) :
    UART_CharGetNonBlocking s = (UART_NO_DATA, s) := by
  unfold UART_CharGetNonBlocking
  rw [if_pos h]

/-- Branch equation of the consumer: with a non-empty receive ring it
returns the composite of the sticky error and the byte at the advanced
tail, and advances the tail. -/
theorem charGet_eq_of_ne (s : UARTState) (h : s.UART_RxHead ≠ s.UART_RxTail) :
    UART_CharGetNonBlocking s =
      ((s.UART_LastRxError <<< 8) + s.UART_RxBuf ((s.UART_RxTail + 1) % 32),
       { s with UART_RxTail := (s.UART_RxTail + 1) % 32 }) := by
  unfold UART_CharGetNonBlocking
  rw [land_mask_eq_mod, if_neg h]

/-- Claim C5: `UART_CharGetNonBlocking` returns the `NoData` sentinel
`0x0100` with no state change exactly when `RxHead = RxTail`; otherwise
it advances `RxTail` to `(RxTail + 1) mod 32`, reads the byte at the new
tail, and returns the composite with `UART_LastRxError` in the high byte
and the byte in the low byte. -/
theorem charGet_spec (s : UARTState) :
    (((UART_CharGetNonBlocking s).1 = UART_NO_DATA ∧
        (UART_CharGetNonBlocking s).2 = s) ↔
      s.UART_RxHead = s.UART_RxTail)
    ∧ (if s.UART_RxHead = s.UART_RxTail then
        UART_CharGetNonBlocking s = (UART_NO_DATA, s)
      else
        (UART_CharGetNonBlocking s).2.UART_RxTail = (s.UART_RxTail + 1) % 32 ∧
        (UART_CharGetNonBlocking s).2.UART_RxHead = s.UART_RxHead ∧
        (UART_CharGetNonBlocking s).2.UART_RxBuf = s.UART_RxBuf ∧
        (UART_CharGetNonBlocking s).2.UART_LastRxError = s.UART_LastRxError ∧
        (UART_CharGetNonBlocking s).1 =
          s.UART_LastRxError * 2 ^ 8 + s.UART_RxBuf ((s.UART_RxTail + 1) % 32) ∧
        (s.UART_LastRxError < 2 ^ 8 →
          s.UART_RxBuf ((s.UART_RxTail + 1) % 32) < 2 ^ 8 →
          (UART_CharGetNonBlocking s).1 / 2 ^ 8 = s.UART_LastRxError ∧
          (UART_CharGetNonBlocking s).1 % 2 ^ 8 =
            s.UART_RxBuf ((s.UART_RxTail + 1) % 32))) := by
  have hshift : s.UART_LastRxError <<< 8 = s.UART_LastRxError * 2 ^ 8 :=
    Nat.shiftLeft_eq _ 8
  by_cases h : s.UART_RxHead = s.UART_RxTail
  · rw [if_pos h, charGet_eq_of_eq s h]
    simp [h]
  · rw [if_neg h, charGet_eq_of_ne s h]
    have htail : (s.UART_RxTail + 1) % 32 ≠ s.UART_RxTail := by omega
    refine ⟨?_, rfl, rfl, rfl, rfl, ?_, ?_⟩
    · constructor
      · intro hc
        exact absurd (congrArg UARTState.UART_RxTail hc.2) htail
      · intro hc
        exact absurd hc h
    · show s.UART_LastRxError <<< 8 + s.UART_RxBuf ((s.UART_RxTail + 1) % 32) =
        s.UART_LastRxError * 2 ^ 8 + s.UART_RxBuf ((s.UART_RxTail + 1) % 32)
      rw [hshift]
    · intro he hd
      constructor
      · show (s.UART_LastRxError <<< 8 +
            s.UART_RxBuf ((s.UART_RxTail + 1) % 32)) / 2 ^ 8 =
          s.UART_LastRxError
        rw [hshift]
        have h8 : (2 : Nat) ^ 8 = 256 := by norm_num
        rw [h8] at he hd ⊢
        omega
      · show (s.UART_LastRxError <<< 8 +
            s.UART_RxBuf ((s.UART_RxTail + 1) % 32)) % 2 ^ 8 =
          s.UART_RxBuf ((s.UART_RxTail + 1) % 32)
        rw [hshift]
        have h8 : (2 : Nat) ^ 8 = 256 := by norm_num
        rw [h8] at he hd ⊢
        omega

/-- Claim C5 (witness): the get specification at a concrete one-byte
state. -/
theorem charGet_spec_at_one :
    let s := ISR_UART_RECEIVE_INTERRUPT 0 65 emptyState
    (((UART_CharGetNonBlocking s).1 = UART_NO_DATA ∧
        (UART_CharGetNonBlocking s).2 = s) ↔
      s.UART_RxHead = s.UART_RxTail)
    ∧ (if s.UART_RxHead = s.UART_RxTail then
        UART_CharGetNonBlocking s = (UART_NO_DATA, s)
      else
        (UART_CharGetNonBlocking s).2.UART_RxTail = (s.UART_RxTail + 1) % 32 ∧
        (UART_CharGetNonBlocking s).2.UART_RxHead = s.UART_RxHead ∧
        (UART_CharGetNonBlocking s).2.UART_RxBuf = s.UART_RxBuf ∧
        (UART_CharGetNonBlocking s).2.UART_LastRxError = s.UART_LastRxError ∧
        (UART_CharGetNonBlocking s).1 =
          s.UART_LastRxError * 2 ^ 8 + s.UART_RxBuf ((s.UART_RxTail + 1) % 32) ∧
        (s.UART_LastRxError < 2 ^ 8 →
          s.UART_RxBuf ((s.UART_RxTail + 1) % 32) < 2 ^ 8 →
          (UART_CharGetNonBlocking s).1 / 2 ^ 8 = s.UART_LastRxError ∧
          (UART_CharGetNonBlocking s).1 % 2 ^ 8 =
            s.UART_RxBuf ((s.UART_RxTail + 1) % 32))) :=
  charGet_spec (ISR_UART_RECEIVE_INTERRUPT 0 65 emptyState)

/-- Claim C7: after `UART_FlushBuffer` on any state, `UART_CharsAvail`
returns `0` and the next `UART_CharGetNonBlocking` returns the `NoData`
sentinel without changing the state. -/
theorem flush_then_empty (s : UARTState) :
    UART_CharsAvail (UART_FlushBuffer s) = 0 ∧
    UART_CharGetNonBlocking (UART_FlushBuffer s) =
      (UART_NO_DATA, UART_FlushBuffer s) := by
  constructor
  · show ((UART_RX_BUFFER_MASK : Int) + (s.UART_RxTail : Int) -
      (s.UART_RxTail : Int)).tmod (UART_RX_BUFFER_MASK : Int) = 0
    have h : (UART_RX_BUFFER_MASK : Int) + (s.UART_RxTail : Int) -
        (s.UART_RxTail : Int) = (UART_RX_BUFFER_MASK : Int) := by ring
    rw [h]
    decide
  · exact charGet_eq_of_eq (UART_FlushBuffer s) rfl

/-- Claim C8: the transmit interrupt with a non-empty buffer advances
`TxTail` to `(TxTail + 1) mod 32` and writes the byte at the new tail to
the transmit data register (the `txOut` trace), leaving UDRIE alone;
with an empty buffer it disables the UDRE interrupt and leaves both
indices and the trace unchanged. -/
theorem txIsr_spec (s : UARTState) :
    if s.UART_TxHead ≠ s.UART_TxTail then
      (ISR_UART_TRANSMIT_INTERRUPT s).UART_TxTail = (s.UART_TxTail + 1) % 32 ∧
      (ISR_UART_TRANSMIT_INTERRUPT s).UART_TxHead = s.UART_TxHead ∧
      (ISR_UART_TRANSMIT_INTERRUPT s).UART_TxBuf = s.UART_TxBuf ∧
      (ISR_UART_TRANSMIT_INTERRUPT s).txOut =
        s.txOut ++ [s.UART_TxBuf ((s.UART_TxTail + 1) % 32)] ∧
      (ISR_UART_TRANSMIT_INTERRUPT s).udrie = s.udrie
    else
      (ISR_UART_TRANSMIT_INTERRUPT s).udrie = false ∧
      (ISR_UART_TRANSMIT_INTERRUPT s).UART_TxHead = s.UART_TxHead ∧
      (ISR_UART_TRANSMIT_INTERRUPT s).UART_TxTail = s.UART_TxTail ∧
      (ISR_UART_TRANSMIT_INTERRUPT s).UART_TxBuf = s.UART_TxBuf ∧
      (ISR_UART_TRANSMIT_INTERRUPT s).txOut = s.txOut := by
  unfold ISR_UART_TRANSMIT_INTERRUPT
  rw [land_tx_mask_eq_mod]
  by_cases h : s.UART_TxHead ≠ s.UART_TxTail
  · rw [if_pos h, if_pos h]
    exact ⟨rfl, rfl, rfl, rfl, rfl⟩
  · rw [if_neg h, if_neg h]
    exact ⟨rfl, rfl, rfl, rfl, rfl⟩

/-- The receive state after 31 receive interrupts (each carrying byte 65
with a clean status register) from a freshly initialised driver: the
ring then holds its maximal 31 buffered bytes, `RxHead = 31`,
`RxTail = 0`. -/
def fullRxState : UARTState :=
  rxFill (List.replicate 31 (0, 65)) (UART_Init emptyState)

set_option maxRecDepth 8000 in
/-- Claim C1: with 31 bytes buffered (`RxHead = 31`, `RxTail = 0`,
reached by 31 receive interrupts from init), `UART_CharsAvail` returns
`(31 + 31 - 0) % 31 = 0` although `(RxHead - RxTail) mod 32 = 31` bytes
are buffered: the source divides by the mask `31` instead of the
capacity `32`. -/
theorem charsAvail_off_by_one :
    fullRxState.UART_RxHead = 31 ∧ fullRxState.UART_RxTail = 0 ∧
    rxLive fullRxState = 31 ∧ UART_CharsAvail fullRxState = 0 := by
  refine ⟨by decide, by decide, by decide, by decide⟩

/-- Claim C9: from any state with all four ring indices inside
`[0, 31]`, each operation of the driver leaves all four indices inside
`[0, 31]`: every index write is `0`, a masked value, or a copy of
another in-range index. -/
theorem ops_preserve_index_range (s : UARTState) (h : InvIdx s) :
    InvIdx (UART_Init s) ∧
    (∀ usr data, InvIdx (ISR_UART_RECEIVE_INTERRUPT usr data s)) ∧
    InvIdx (ISR_UART_TRANSMIT_INTERRUPT s) ∧
    InvIdx (UART_CharGetNonBlocking s).2 ∧
    (∀ b s', UART_CharPutNonBlocking b s = some s' → InvIdx s') ∧
    InvIdx (UART_FlushBuffer s) := by
  have hs : UART_RX_BUFFER_SIZE = 32 := rfl
  have ht : UART_TX_BUFFER_SIZE = 32 := rfl
  simp only [InvIdx, hs, ht] at h ⊢
  obtain ⟨h1, h2, h3, h4⟩ := h
  refine ⟨?_, ?_, ?_, ?_, ?_, ?_⟩
  · exact ⟨by norm_num [UART_Init], by norm_num [UART_Init],
      by norm_num [UART_Init], by norm_num [UART_Init]⟩
  · intro usr data
    unfold ISR_UART_RECEIVE_INTERRUPT
    rw [land_mask_eq_mod]
    by_cases hc : (s.UART_RxHead + 1) % 32 = s.UART_RxTail
    · rw [if_pos hc]
      exact ⟨h1, h2, h3, h4⟩
    · rw [if_neg hc]
      refine ⟨?_, h2, h3, h4⟩
      show (s.UART_RxHead + 1) % 32 < 32
      omega
  · unfold ISR_UART_TRANSMIT_INTERRUPT
    rw [land_tx_mask_eq_mod]
    by_cases hc : s.UART_TxHead ≠ s.UART_TxTail
    · rw [if_pos hc]
      refine ⟨h1, h2, h3, ?_⟩
      show (s.UART_TxTail + 1) % 32 < 32
      omega
    · rw [if_neg hc]
      exact ⟨h1, h2, h3, h4⟩
  · by_cases hget : s.UART_RxHead = s.UART_RxTail
    · rw [charGet_eq_of_eq s hget]
      exact ⟨h1, h2, h3, h4⟩
    · rw [charGet_eq_of_ne s hget]
      refine ⟨h1, ?_, h3, h4⟩
      show (s.UART_RxTail + 1) % 32 < 32
      omega
  · intro b s' hput
    unfold UART_CharPutNonBlocking at hput
    rw [land_tx_mask_eq_mod] at hput
    by_cases hc : (s.UART_TxHead + 1) % 32 = s.UART_TxTail
    · rw [if_pos hc] at hput
      exact absurd hput (by simp)
    · rw [if_neg hc] at hput
      cases hput
      refine ⟨h1, h2, ?_, h4⟩
      show (s.UART_TxHead + 1) % 32 < 32
      omega
  · exact ⟨h2, h2, h3, h4⟩

/-- Claim C9 (witness): the invariant holds at the zeroed state and is
preserved, e.g. across `UART_FlushBuffer`. -/
theorem ops_preserve_index_range_at_empty :
    InvIdx emptyState ∧ InvIdx (UART_FlushBuffer emptyState) :=
  ⟨by decide, (ops_preserve_index_range emptyState (by decide)).2.2.2.2.2⟩

/-- The string helper on the characters before the terminator is the
sequential application of the character producer. -/
theorem stringPut_eq_charPutAll (cs : List Nat) :
    ∀ (s : UARTState) (rest : List Nat), 0 ∉ cs →
      UART_StringPutNonBlocking (cs ++ 0 :: rest) s = charPutAll cs s := by
  induction cs with
  | nil =>
    intro s rest h
    simp [UART_StringPutNonBlocking, charPutAll]
  | cons c cs ih =>
    intro s rest h
    have hc : ¬ c = 0 := fun hc0 => h (by simp [hc0])
    have hcs : 0 ∉ cs := fun hm => h (List.mem_cons_of_mem _ hm)
    show UART_StringPutNonBlocking (c :: (cs ++ 0 :: rest)) s = _
    simp only [UART_StringPutNonBlocking, charPutAll, if_neg hc]
    cases hp : UART_CharPutNonBlocking c s with
    | none => rfl
    | some s' => exact ih s' rest hcs

/-- Claim C10: `UART_StringPutNonBlocking` on the empty string (first
character the null terminator) changes nothing, and on
`cs ++ 0 :: rest` with no terminator inside `cs` applies
`UART_CharPutNonBlocking` to each character of `cs` in order. -/
theorem stringPut_spec (s : UARTState) (cs rest : List Nat) (h : 0 ∉ cs) :
    UART_StringPutNonBlocking (0 :: rest) s = some s ∧
    UART_StringPutNonBlocking (cs ++ 0 :: rest) s = charPutAll cs s :=
  ⟨by simp [UART_StringPutNonBlocking], stringPut_eq_charPutAll cs s rest h⟩

/-- Claim C10 (witness): the string specification at the two-character
string "Hi" followed by the terminator, starting from the zeroed
state. -/
theorem stringPut_spec_at_hi :
    UART_StringPutNonBlocking ([72, 105] ++ 0 :: []) emptyState =
      charPutAll [72, 105] emptyState :=
  (stringPut_spec emptyState [72, 105] [] (by decide)).2

/-- The length of the queue abstraction is the live count. -/
theorem rxQueue_length (s : UARTState) : (rxQueue s).length = rxLive s := by
  simp [rxQueue]

/-- Enqueue lemma: a receive interrupt on a non-full ring appends the
received byte to the queue abstraction and keeps the indices in
range. -/
theorem rxIsr_enq (usr data : Nat) (s : UARTState)
    (h1 : s.UART_RxHead < 32) (h2 : s.UART_RxTail < 32)
    (hnf : rxLive s ≤ 30) :
    (ISR_UART_RECEIVE_INTERRUPT usr data s).UART_RxHead < 32 ∧
    (ISR_UART_RECEIVE_INTERRUPT usr data s).UART_RxTail = s.UART_RxTail ∧
    rxQueue (ISR_UART_RECEIVE_INTERRUPT usr data s) = rxQueue s ++ [data] := by
  have hsz : UART_RX_BUFFER_SIZE = 32 := rfl
  have hlive : rxLive s = (s.UART_RxHead + 32 - s.UART_RxTail) % 32 := by
    unfold rxLive
    rw [hsz]
  rw [hlive] at hnf
  have hne : (s.UART_RxHead + 1) % 32 ≠ s.UART_RxTail := by omega
  unfold ISR_UART_RECEIVE_INTERRUPT
  rw [land_mask_eq_mod, if_neg hne]
  refine ⟨by show (s.UART_RxHead + 1) % 32 < 32; omega, rfl, ?_⟩
  unfold rxQueue rxLive
  rw [hsz]
  simp only
  have hL : ((s.UART_RxHead + 1) % 32 + 32 - s.UART_RxTail) % 32 =
      (s.UART_RxHead + 32 - s.UART_RxTail) % 32 + 1 := by omega
  rw [hL, List.range_succ, List.map_append]
  congr 1
  · refine List.map_congr_left ?_
    intro i hi
    rw [List.mem_range] at hi
    have hidx : (s.UART_RxTail + 1 + i) % 32 ≠ (s.UART_RxHead + 1) % 32 := by
      omega
    simp [writeBuf, hidx]
  · have hidx : (s.UART_RxTail + 1 +
        (s.UART_RxHead + 32 - s.UART_RxTail) % 32) % 32 =
        (s.UART_RxHead + 1) % 32 := by omega
    simp [writeBuf, hidx]

/-- Dequeue lemma: a get on a non-empty ring returns (in its low byte)
the head of the queue abstraction and leaves the tail of the queue. -/
theorem charGet_deq (s : UARTState)
    (h1 : s.UART_RxHead < 32) (h2 : s.UART_RxTail < 32)
    (hne : s.UART_RxHead ≠ s.UART_RxTail) :
    (UART_CharGetNonBlocking s).2.UART_RxHead = s.UART_RxHead ∧
    (UART_CharGetNonBlocking s).2.UART_RxTail < 32 ∧
    rxQueue s = s.UART_RxBuf ((s.UART_RxTail + 1) % 32) ::
      rxQueue (UART_CharGetNonBlocking s).2 ∧
    (UART_CharGetNonBlocking s).1 % 256 =
      s.UART_RxBuf ((s.UART_RxTail + 1) % 32) % 256 := by
  have hsz : UART_RX_BUFFER_SIZE = 32 := rfl
  rw [charGet_eq_of_ne s hne]
  refine ⟨rfl, by show (s.UART_RxTail + 1) % 32 < 32; omega, ?_, ?_⟩
  · unfold rxQueue rxLive
    rw [hsz]
    simp only
    have hL : (s.UART_RxHead + 32 - s.UART_RxTail) % 32 =
        (s.UART_RxHead + 32 - (s.UART_RxTail + 1) % 32) % 32 + 1 := by omega
    rw [hL, List.range_succ_eq_map, List.map_cons, List.map_map,
      List.cons.injEq]
    refine ⟨?_, ?_⟩
    · have h0 : (s.UART_RxTail + 1 + 0) % 32 = (s.UART_RxTail + 1) % 32 := by
        omega
      rw [h0]
    · refine List.map_congr_left ?_
      intro i hi
      rw [List.mem_range] at hi
      show s.UART_RxBuf ((s.UART_RxTail + 1 + (i + 1)) % 32) =
        s.UART_RxBuf (((s.UART_RxTail + 1) % 32 + 1 + i) % 32)
      congr 1
      omega
  · show (s.UART_LastRxError <<< 8 +
      s.UART_RxBuf ((s.UART_RxTail + 1) % 32)) % 256 = _
    rw [Nat.shiftLeft_eq]
    have h8 : (2 : Nat) ^ 8 = 256 := by norm_num
    rw [h8]
    omega

/-- Filling from a burst of receive interrupts, while the ring has room
for the whole burst, appends the received bytes to the queue
abstraction in arrival order. -/
theorem rxFill_spec (xs : List (Nat × Nat)) :
    ∀ s : UARTState, s.UART_RxHead < 32 → s.UART_RxTail < 32 →
      rxLive s + xs.length ≤ 31 →
      (rxFill xs s).UART_RxHead < 32 ∧
      (rxFill xs s).UART_RxTail = s.UART_RxTail ∧
      rxQueue (rxFill xs s) = rxQueue s ++ xs.map Prod.snd := by
  induction xs with
  | nil =>
    intro s h1 h2 h3
    exact ⟨h1, rfl, by simp [rxFill]⟩
  | cons p xs ih =>
    intro s h1 h2 h3
    rw [List.length_cons] at h3
    obtain ⟨g1, g2, g3⟩ := rxIsr_enq p.1 p.2 s h1 h2 (by omega)
    have hstep : rxFill (p :: xs) s =
        rxFill xs (ISR_UART_RECEIVE_INTERRUPT p.1 p.2 s) := rfl
    have hlive : rxLive (ISR_UART_RECEIVE_INTERRUPT p.1 p.2 s) =
        rxLive s + 1 := by
      rw [← rxQueue_length, ← rxQueue_length, g3]
      simp
    obtain ⟨k1, k2, k3⟩ := ih (ISR_UART_RECEIVE_INTERRUPT p.1 p.2 s) g1
      (g2 ▸ h2) (by omega)
    refine ⟨hstep ▸ k1, ?_, ?_⟩
    · rw [hstep, k2, g2]
    · rw [hstep, k3, g3, List.map_cons, List.append_assoc]
      rfl

/-- Draining `n` bytes, while at least `n` are buffered, returns (in the
low bytes) the first `n` entries of the queue abstraction and leaves the
rest buffered. -/
theorem rxDrain_spec (n : Nat) :
    ∀ s : UARTState, s.UART_RxHead < 32 → s.UART_RxTail < 32 →
      n ≤ (rxQueue s).length →
      (rxDrain n s).1.map (fun r => r % 256) =
        ((rxQueue s).take n).map (fun b => b % 256) ∧
      (rxDrain n s).2.UART_RxHead = s.UART_RxHead ∧
      (rxDrain n s).2.UART_RxTail < 32 ∧
      rxQueue (rxDrain n s).2 = (rxQueue s).drop n := by
  induction n with
  | zero =>
    intro s h1 h2 h3
    exact ⟨rfl, rfl, h2, by simp [rxDrain]⟩
  | succ n ih =>
    intro s h1 h2 h3
    have hsz : UART_RX_BUFFER_SIZE = 32 := rfl
    have hne : s.UART_RxHead ≠ s.UART_RxTail := by
      intro he
      have hlen : (rxQueue s).length = 0 := by
        rw [rxQueue_length]
        unfold rxLive
        rw [hsz, he]
        omega
      omega
    obtain ⟨d1, d2, d3, d4⟩ := charGet_deq s h1 h2 hne
    have hstep : rxDrain (n + 1) s =
        ((UART_CharGetNonBlocking s).1 ::
           (rxDrain n (UART_CharGetNonBlocking s).2).1,
         (rxDrain n (UART_CharGetNonBlocking s).2).2) := rfl
    have hlen' : n ≤ (rxQueue (UART_CharGetNonBlocking s).2).length := by
      have := congrArg List.length d3
      simp at this
      omega
    obtain ⟨k1, k2, k3, k4⟩ := ih (UART_CharGetNonBlocking s).2
      (d1 ▸ h1) d2 hlen'
    refine ⟨?_, ?_, ?_, ?_⟩
    · rw [hstep]
      simp only [List.map_cons]
      rw [d3, List.take_succ_cons, List.map_cons, k1, d4]
    · rw [hstep]
      simp only
      rw [k2, d1]
    · rw [hstep]
      simp only
      exact k3
    · rw [hstep]
      simp only
      rw [k4, d3, List.drop_succ_cons]

/-- Claim C4: starting from an empty receive ring with in-range indices,
`N ≤ 31` receive interrupts followed by `N` gets with nothing in between
return exactly the inserted bytes in insertion order (the low byte of
each composite result is the corresponding inserted byte). -/
theorem fifo_order (xs : List (Nat × Nat)) (s : UARTState)
    (h1 : s.UART_RxHead < 32) (h2 : s.UART_RxTail < 32)
    (hempty : s.UART_RxHead = s.UART_RxTail)
    (hlen : xs.length ≤ 31) (hbytes : ∀ p ∈ xs, p.2 < 256) :
    (rxDrain xs.length (rxFill xs s)).1.map (fun r => r % 256) =
      xs.map Prod.snd := by
  have hsz : UART_RX_BUFFER_SIZE = 32 := rfl
  have hlive0 : rxLive s = 0 := by
    unfold rxLive
    rw [hsz, hempty]
    omega
  have hq0 : rxQueue s = [] := by
    rw [← List.length_eq_zero, rxQueue_length, hlive0]
  obtain ⟨f1, f2, f3⟩ := rxFill_spec xs s h1 h2 (by omega)
  rw [hq0, List.nil_append] at f3
  obtain ⟨d1, _, _, _⟩ := rxDrain_spec xs.length (rxFill xs s) f1
    (f2 ▸ h2) (by rw [f3, List.length_map])
  have htake : (xs.map Prod.snd).take xs.length = xs.map Prod.snd :=
    List.take_of_length_le (by rw [List.length_map])
  rw [d1, f3, htake]
  have hid : ∀ b ∈ xs.map Prod.snd, b % 256 = b := by
    intro b hb
    rw [List.mem_map] at hb
    obtain ⟨p, hp, rfl⟩ := hb
    exact Nat.mod_eq_of_lt (hbytes p hp)
  exact (List.map_congr_left hid).trans (List.map_id' _)

/-- Claim C4 (witness): three bytes 65, 66, 67 received and then drained
from the zeroed state come back in insertion order. -/
theorem fifo_order_at_three :
    (rxDrain (List.length [((0 : Nat), (65 : Nat)), (0, 66), (0, 67)])
        (rxFill [(0, 65), (0, 66), (0, 67)] emptyState)).1.map
      (fun r => r % 256) =
      [(0, 65), (0, 66), (0, 67)].map
        (Prod.snd (α := Nat) (β := Nat)) :=
  fifo_order [(0, 65), (0, 66), (0, 67)] emptyState (by decide) (by decide)
    (by decide) (by decide) (by decide)

/-- Claim C6: in every reachable state each ring holds at most
`C - 1 = 31` live elements, and the full condition is never crossed by a
producer step: a receive interrupt on a full receive ring leaves the
head where it is, and the transmit producer's busy-wait does not
complete (no insertion happens) on a full transmit ring until a
consuming step has freed a slot. -/
theorem ring_capacity_bound (s : UARTState) (h : Reachable s) :
    rxLive s ≤ 31 ∧ txLive s ≤ 31 ∧
    (∀ usr data, (s.UART_RxHead + 1) % 32 = s.UART_RxTail →
      (ISR_UART_RECEIVE_INTERRUPT usr data s).UART_RxHead = s.UART_RxHead) ∧
    (∀ b, (s.UART_TxHead + 1) % 32 = s.UART_TxTail →
      UART_CharPutNonBlocking b s = none) := by
  refine ⟨?_, ?_, ?_, ?_⟩
  · unfold rxLive
    show _ % 32 ≤ 31
    omega
  · unfold txLive
    show _ % 32 ≤ 31
    omega
  · intro usr data hfull
    unfold ISR_UART_RECEIVE_INTERRUPT
    rw [land_mask_eq_mod, if_pos hfull]
  · intro b hfull
    unfold UART_CharPutNonBlocking
    rw [land_tx_mask_eq_mod, if_pos hfull]

/-- Claim C6 (witness): the freshly initialised state is reachable and
satisfies the capacity bound. -/
theorem ring_capacity_bound_at_init :
    Reachable (UART_Init emptyState) ∧ rxLive (UART_Init emptyState) ≤ 31 :=
  ⟨⟨emptyState, Relation.ReflTransGen.refl⟩,
   (ring_capacity_bound (UART_Init emptyState)
     ⟨emptyState, Relation.ReflTransGen.refl⟩).1⟩
